import Mathlib

/-!
Shallow embedding of the Neon Rain session/game-state engine
(backend services: vfsEngine.js, aiEngine.js, sessionManager.js,
puzzleEngine.js), together with theorems settling the frozen claims.

Conventions of the embedding:
* JavaScript strings are Lean `String`s; object maps with string keys are
  association lists (`List (String × FSNode)`), insertion-ordered with
  unique keys, looked up by first match.
* JS numbers used as AI levels are `Int`; byte values and user ids are `Nat`.
* Throwing operations return `Except String α`; the thrown message is the
  `String`.  In every modelled operation all throws happen before the first
  mutation in the source, so an `.error` result models an unchanged session.
* `Set` objects (unlockedPaths) are `List String` with set-like insertion
  (`setAdd`), membership by string equality.
-/

namespace NeonRain

/-! ### Path algebra (vfsEngine.js) -/

/-- `s.split('/').filter(p => p)` — split a path on `/` and drop empty
segments.  Implemented over the character list so concrete instances reduce
in the kernel. -/
def splitSegs (s : String) : List String :=
  ((s.toList.splitOn '/').filter (fun cs => cs ≠ [])).map String.mk

/-- `'/' + parts.join('/')` — render a segment list as an absolute path. -/
def renderPath (parts : List String) : String :=
  "/" ++ String.intercalate "/" parts

/-- JS `s.startsWith(pre)`. -/
def jsStartsWith (s pre : String) : Bool :=
  pre.toList.isPrefixOf s.toList

/-- Whitespace for the purposes of JS `String.prototype.trim` (the ASCII
subset actually occurring in keys and answers). -/
def isWhitespaceChar (c : Char) : Bool :=
  c = ' ' || c = '\t' || c = '\n' || c = '\r'

/-- JS `s.trim()`: strip leading and trailing whitespace.  Implemented over
the character list so concrete instances reduce in the kernel. -/
def jsTrim (s : String) : String :=
  String.mk (((s.toList.dropWhile isWhitespaceChar).reverse.dropWhile
    isWhitespaceChar).reverse)

/-- JS `s.toLowerCase()` (character-wise). -/
def jsToLower (s : String) : String :=
  String.mk (s.toList.map Char.toLower)

/-- The loop body of `resolvePath`: fold the target segments over the stack
of current segments (`.` skips, `..` pops, others push). -/
def resolveParts : List String → List String → List String
  | parts, [] => parts
  | parts, t :: ts =>
    if t = "." then resolveParts parts ts
    else if t = ".." then resolveParts parts.dropLast ts
    else resolveParts (parts ++ [t]) ts

/-- `VFSEngine.resolvePath(fs, currentPath, targetPath)`.  The `fs` argument
is unused in the source and omitted here; the source's `typeof currentPath`
guard is moot because `currentPath` is always a `String` in this model. -/
def resolvePath (currentPath targetPath : String) : String :=
  if targetPath = "" then (if currentPath = "" then "/" else currentPath)
  else if jsStartsWith targetPath "/" then targetPath
  else renderPath (resolveParts (splitSegs currentPath) (splitSegs targetPath))

/-! ### Filesystem tree model -/

/-- Node metadata.  The source keeps metadata as a free-form object; the
fields used by the engine are modelled explicitly, absent fields being
`false` / `none`. -/
structure NodeMeta where
  locked : Bool := false
  encrypted : Bool := false
  decrypted : Bool := false
  securityFile : Bool := false
  unlocksPaths : Option (List String) := none
  targetUsers : Option (List Nat) := none
  deriving Repr, DecidableEq

/-- A filesystem node: `{type: 'file', contents, meta}` or
`{type: 'dir', children, meta}`.  A missing `children` object is the empty
association list. -/
inductive FSNode where
  | file (contents : String) (meta : NodeMeta)
  | dir (children : List (String × FSNode)) (meta : NodeMeta)
  deriving Repr

/-- `node.meta` (with `{}` defaulting). -/
def FSNode.meta : FSNode → NodeMeta
  | .file _ m => m
  | .dir _ m => m

/-- JS object property lookup (`children[name]`), first match. -/
def childLookup : List (String × FSNode) → String → Option FSNode
  | [], _ => none
  | (n, c) :: rest, name => if n = name then some c else childLookup rest name

/-- JS object property assignment (`children[name] = v`): replace the first
binding in place, else append. -/
def childInsert : List (String × FSNode) → String → FSNode → List (String × FSNode)
  | [], name, v => [(name, v)]
  | (n, c) :: rest, name, v =>
    if n = name then (n, v) :: rest else (n, c) :: childInsert rest name v

/-- JS `delete children[name]`. -/
def childRemove : List (String × FSNode) → String → List (String × FSNode)
  | [], _ => []
  | (n, c) :: rest, name =>
    if n = name then rest else (n, c) :: childRemove rest name

/-- The walking loop of `VFSEngine.getNode`, over an already split segment
list: any missing intermediate child (or a file met before the end) yields
`none`. -/
def getNodeSegs : FSNode → List String → Option FSNode
  | node, [] => some node
  | .file _ _, _ :: _ => none
  | .dir children _, s :: rest =>
    match childLookup children s with
    | none => none
    | some c => getNodeSegs c rest

/-- `VFSEngine.getNode(fs, path)`.  The source's special case for `'/'` is
subsumed: `'/'` splits to the empty segment list, which returns the root. -/
def getNode (root : FSNode) (path : String) : Option FSNode :=
  getNodeSegs root (splitSegs path)

/-- Replace the node at a segment path with `newNode` (functional version of
the in-place mutation of a node returned by `getNode`; identity when the
path does not exist). -/
def setNodeAt : FSNode → List String → FSNode → FSNode
  | _, [], newNode => newNode
  | .file c m, _ :: _, _ => .file c m
  | .dir children m, s :: rest, newNode =>
    match childLookup children s with
    | none => .dir children m
    | some c => .dir (childInsert children s (setNodeAt c rest newNode)) m

/-! ### Session model (sessionManager.js) -/

/-- The per-session AI state machine instance (`session.aiState`). -/
structure AIState where
  level : Int := 0
  status : String := "idle"
  challenge : Option (String × String) := none  -- (question, answer)
  deriving Repr, DecidableEq

/-- Transient notification data stored on `session.meta` by `delete`. -/
structure SessMeta where
  recentlyUnlockedSessions : Option (List String) := none
  recentlyUnlockedPaths : Option (List String) := none
  deriving Repr, DecidableEq

/-- A player session.  `commandHistory` and the timestamps are irrelevant to
the claims and omitted; `puzzleState` keeps the `solved` flag per puzzle id
(the source also stores a timestamp). -/
structure Session where
  id : String
  userId : Nat
  fsRoot : FSNode
  currentPath : String
  unlockedPaths : Option (List String)
  puzzleState : List (String × Bool)
  aiState : AIState
  meta : SessMeta := {}
  deriving Repr

/-- `Set.add` on a `List String` model of a JS `Set`: append if absent. -/
def setAdd (l : List String) (x : String) : List String :=
  if x ∈ l then l else l ++ [x]

/-- `puzzleState[id]?.solved` — association-list read of the solved flag. -/
def solvedLookup : List (String × Bool) → String → Bool
  | [], _ => false
  | (n, b) :: rest, id => if n = id then b else solvedLookup rest id

/-- `session.puzzleState[id] = {solved: true, ...}`. -/
def solvedInsert : List (String × Bool) → String → List (String × Bool)
  | [], id => [(id, true)]
  | (n, b) :: rest, id =>
    if n = id then (n, true) :: rest else (n, b) :: solvedInsert rest id

/-! ### Visibility rule and read operations (vfsEngine.js) -/

/-- `VFSEngine.isPathUnlocked(session, path)`: no `unlockedPaths` set means
allow all; otherwise the path or any segment-prefix of it is a member, or
the path textually starts with some member. -/
def isPathUnlocked (session : Session) (path : String) : Bool :=
  match session.unlockedPaths with
  | none => true
  | some ups =>
    let parts := splitSegs path
    ((List.range parts.length).any fun i =>
      ups.contains (renderPath (parts.take (i + 1)))) ||
    ups.any fun unlocked => jsStartsWith path unlocked

/-- The child-path construction used by `list` and `search`:
``resolvedPath === '/' ? `/${name}` : `${resolvedPath}/${name}` ``. -/
def childPath (p name : String) : String :=
  if p = "/" then "/" ++ name else p ++ "/" ++ name

/-- One entry of a `list` result.  `size` is the contents length for files
and `none` (rendered `'-'`) for directories. -/
structure ListEntry where
  name : String
  type : String
  size : Option Nat
  meta : NodeMeta
  deriving Repr, DecidableEq

/-- `VFSEngine.list(session, path)`. -/
def list (session : Session) (path : String) : Except String (List ListEntry) :=
  let resolvedPath := resolvePath session.currentPath path
  match getNode session.fsRoot resolvedPath with
  | none => .error ("No such file or directory: " ++ path)
  | some (.file _ _) => .error ("Not a directory: " ++ path)
  | some (.dir children meta) =>
    if meta.locked then .error ("Permission denied: " ++ path ++ " is locked")
    else if !isPathUnlocked session resolvedPath then
      .error ("Permission denied: " ++ path ++ " is locked")
    else
      .ok <| (children.filter fun (name, _) =>
          isPathUnlocked session (childPath resolvedPath name)).map
        fun (name, child) =>
          match child with
          | .file contents cmeta =>
            { name := name, type := "file", size := some contents.length, meta := cmeta }
          | .dir _ cmeta =>
            { name := name, type := "dir", size := none, meta := cmeta }

/-- `VFSEngine.readFile(session, path)`. -/
def readFile (session : Session) (path : String) : Except String (String × NodeMeta) :=
  let resolvedPath := resolvePath session.currentPath path
  match getNode session.fsRoot resolvedPath with
  | none => .error ("No such file: " ++ path)
  | some (.dir _ _) => .error ("Not a file: " ++ path)
  | some (.file contents meta) =>
    if meta.locked then .error ("Permission denied: " ++ path ++ " is locked")
    else if !isPathUnlocked session resolvedPath then
      .error ("Permission denied: " ++ path ++ " is locked")
    else .ok (contents, meta)

/-! ### Search (vfsEngine.js) -/

/-- One entry of a `search` result. -/
structure SearchHit where
  path : String
  type : String
  matchedOn : String
  deriving Repr, DecidableEq

mutual
/-- The recursive `searchNode` closure of `VFSEngine.search`.  The
case-insensitive `RegExp` test is abstracted as the predicate `test`
(regular-expression semantics live outside the engine). -/
def searchNode (test : String → Bool) : FSNode → String → List SearchHit
  | .file contents _, path =>
    if test path || test contents then
      [{ path := path, type := "file",
         matchedOn := if test path then "filename" else "content" }]
    else []
  | .dir children _, path => searchChildren test children path

/-- Iteration over `Object.keys(node.children)` inside `searchNode`. -/
def searchChildren (test : String → Bool) :
    List (String × FSNode) → String → List SearchHit
  | [], _ => []
  | (name, child) :: rest, path =>
    searchNode test child (childPath path name) ++ searchChildren test rest path
end

/-- `VFSEngine.search(session, pattern)`: scans the whole tree from the root
with no lock or accessibility filtering. -/
def search (session : Session) (test : String → Bool) : List SearchHit :=
  searchNode test session.fsRoot "/"

/-! ### Decrypt (vfsEngine.js) -/

/-- Hex digit value, as accepted by `parseInt(-, 16)` (both cases). -/
def hexDigitVal (c : Char) : Option Nat :=
  if '0' ≤ c ∧ c ≤ '9' then some (c.toNat - '0'.toNat)
  else if 'a' ≤ c ∧ c ≤ 'f' then some (c.toNat - 'a'.toNat + 10)
  else if 'A' ≤ c ∧ c ≤ 'F' then some (c.toNat - 'A'.toNat + 10)
  else none

/-- `parseInt(hex, 16)` on a two-character chunk: `none` models `NaN`;
a valid first digit followed by junk parses as the first digit alone. -/
def parseHexPair (a b : Char) : Option Nat :=
  match hexDigitVal a with
  | none => none
  | some da =>
    match hexDigitVal b with
    | none => some da
    | some db => some (da * 16 + db)

/-- `hexData.match(/.{2}/g)`: successive non-overlapping two-character
chunks, a trailing odd character being dropped.  (The regex `.` would skip
newlines; ciphertext hex never contains them.) -/
def chunkPairs : List Char → List (Char × Char)
  | a :: b :: rest => (a, b) :: chunkPairs rest
  | _ => []

/-- `String.fromCharCode` on a JS number: reduce modulo 2^16.  All byte
values produced by the claims stay below 256, hence valid `Char`s. -/
def fromCharCode (n : Nat) : Char :=
  Char.ofNat (n % 65536)

/-- The byte-wise XOR decryption loop: a `NaN` chunk XORs like `0`. -/
def decryptBytes (hexChars : List Char) (key : Nat) : List Nat :=
  (chunkPairs hexChars).map fun (a, b) => ((parseHexPair a b).getD 0) ^^^ key

/-- `VFSEngine.decrypt(session, path, key)`.  `key?` is the result of
`parseInt(key, 10)` (`none` = `NaN`).  Returns the updated tree and the
plaintext.  The source's `try/catch` around `match` is dead code (`match`
does not throw) and is not modelled. -/
def decrypt (session : Session) (path : String) (key? : Option Nat) :
    Except String (FSNode × String) :=
  let resolvedPath := resolvePath session.currentPath path
  match getNode session.fsRoot resolvedPath with
  | none => .error ("No such file: " ++ path)
  | some (.dir _ _) => .error ("No such file: " ++ path)
  | some (.file contents meta) =>
    if !meta.encrypted then .error ("File is not encrypted: " ++ path)
    else if jsStartsWith contents "ENCRYPTED:XOR:" then
      let hexData := contents.toList.drop 14
      match key? with
      | none => .error "Invalid key format"
      | some keyNum =>
        let decrypted := String.mk ((decryptBytes hexData keyNum).map fromCharCode)
        let newMeta := { meta with encrypted := false, decrypted := true }
        let newRoot := setNodeAt session.fsRoot (splitSegs resolvedPath)
          (.file decrypted newMeta)
        .ok (newRoot, decrypted)
    else .error "Unsupported encryption format"

/-! ### Mutating tree operations (vfsEngine.js) -/

/-- `VFSEngine.addFile` / `VFSEngine.writeFile` (identical bodies): create
or replace a file under an existing directory. -/
def addFile (session : Session) (path contents : String) (meta : NodeMeta) :
    Except String (FSNode × String) :=
  let resolvedPath := resolvePath session.currentPath path
  let parts := splitSegs resolvedPath
  match parts.getLast? with
  | none => .error ("Invalid directory: " ++ renderPath [])
  | some filename =>
    let dirParts := parts.dropLast
    let dirPath := renderPath dirParts
    match getNode session.fsRoot dirPath with
    | some (.dir children dmeta) =>
      .ok (setNodeAt session.fsRoot dirParts
        (.dir (childInsert children filename (.file contents meta)) dmeta),
        resolvedPath)
    | _ => .error ("Invalid directory: " ++ dirPath)

/-- `VFSEngine.setLock(session, path, locked)`. -/
def setLock (session : Session) (path : String) (locked : Bool) :
    Except String (FSNode × String × Bool) :=
  let resolvedPath := resolvePath session.currentPath path
  match getNode session.fsRoot resolvedPath with
  | none => .error ("No such file or directory: " ++ path)
  | some (.file c m) =>
    .ok (setNodeAt session.fsRoot (splitSegs resolvedPath)
      (.file c { m with locked := locked }), resolvedPath, locked)
  | some (.dir ch m) =>
    .ok (setNodeAt session.fsRoot (splitSegs resolvedPath)
      (.dir ch { m with locked := locked }), resolvedPath, locked)

/-- `VFSEngine.rename(session, path, newName)`.  A path resolving to `/`
pops no name; `children[undefined]` then misses (assuming no child is
literally named `"undefined"`), which the source reports as not found. -/
def rename (session : Session) (path newName : String) :
    Except String (FSNode × String) :=
  let resolvedPath := resolvePath session.currentPath path
  let parts := splitSegs resolvedPath
  match parts.getLast? with
  | none => .error ("No such file or directory: " ++ path)
  | some oldName =>
    let parentParts := parts.dropLast
    let parentPath := renderPath parentParts
    match getNode session.fsRoot parentPath with
    | some (.dir children pmeta) =>
      match childLookup children oldName with
      | none => .error ("No such file or directory: " ++ path)
      | some node =>
        match childLookup children newName with
        | some _ => .error ("File or directory already exists: " ++ newName)
        | none =>
          let newChildren := childRemove (childInsert children newName node) oldName
          .ok (setNodeAt session.fsRoot parentParts (.dir newChildren pmeta),
            if parentPath = "/" then "/" ++ newName else parentPath ++ "/" ++ newName)
    | _ => .error ("Invalid parent directory: " ++ parentPath)

/-- `VFSEngine.move(session, sourcePath, targetPath)`: relocate the source
node under the target directory.  Check order follows the source: source
exists, target is a directory, destination name free, source parent valid,
then relink. -/
def move (session : Session) (sourcePath targetPath : String) :
    Except String (FSNode × String) :=
  let resolvedSource := resolvePath session.currentPath sourcePath
  let resolvedTarget := resolvePath session.currentPath targetPath
  match getNode session.fsRoot resolvedSource with
  | none => .error ("No such file or directory: " ++ sourcePath)
  | some sourceNode =>
    match getNode session.fsRoot resolvedTarget with
    | some (.dir targetChildren targetMeta) =>
      let sourceParts := splitSegs resolvedSource
      match sourceParts.getLast? with
      | none => .error ("Invalid source parent: " ++ renderPath [])
      | some sourceName =>
        match childLookup targetChildren sourceName with
        | some _ =>
          .error ("File or directory already exists in target: " ++ sourceName)
        | none =>
          let sourceParentParts := sourceParts.dropLast
          let sourceParentPath := renderPath sourceParentParts
          match getNode session.fsRoot sourceParentPath with
          | some (.dir _ _) =>
            -- target insertion happens first in the source, then the
            -- source-parent unlink; the unlink is performed on the
            -- already-extended tree
            let afterAdd := setNodeAt session.fsRoot (splitSegs resolvedTarget)
              (.dir (childInsert targetChildren sourceName sourceNode) targetMeta)
            let afterRemove :=
              match getNodeSegs afterAdd sourceParentParts with
              | some (.dir pch pm) =>
                setNodeAt afterAdd sourceParentParts (.dir (childRemove pch sourceName) pm)
              | _ => afterAdd
            .ok (afterRemove,
              if resolvedTarget = "/" then "/" ++ sourceName
              else resolvedTarget ++ "/" ++ sourceName)
          | _ => .error ("Invalid source parent: " ++ sourceParentPath)
    | _ => .error ("Target is not a directory: " ++ targetPath)

/-- Exception-boundary wrapper for `rename`: JS throws precede every
mutation, so a thrown rename leaves the session's tree untouched. -/
def runRename (session : Session) (path newName : String) :
    Session × Except String String :=
  match rename session path newName with
  | .ok (newRoot, newPath) => ({ session with fsRoot := newRoot }, .ok newPath)
  | .error e => (session, .error e)

/-- Exception-boundary wrapper for `move`: JS throws precede every
mutation, so a thrown move leaves the session's tree untouched. -/
def runMove (session : Session) (sourcePath targetPath : String) :
    Session × Except String String :=
  match move session sourcePath targetPath with
  | .ok (newRoot, newPath) => ({ session with fsRoot := newRoot }, .ok newPath)
  | .error e => (session, .error e)

/-! ### Delete with cross-session unlock propagation (vfsEngine.js) -/

/-- The inner ancestor loop of `delete`'s propagation: for `i` from 1 to the
number of segments, `'/' + parts.slice(0, i).join('/')`.  Note the root `/`
itself is never produced (the loop starts at one segment). -/
def ancestorChain (p : String) : List String :=
  (List.range (splitSegs p).length).map fun i => renderPath ((splitSegs p).take (i + 1))

/-- Add one `unlockPath` and its ancestor chain to a session's unlock set. -/
def addUnlockPath (acc : List String) (p : String) : List String :=
  (ancestorChain p).foldl setAdd (setAdd acc p)

/-- The whole `unlocksPaths.forEach` body applied to one target session's
`unlockedPaths` (an absent set starts from a fresh empty one). -/
def applyUnlocks (ups : List String) (cur : Option (List String)) : List String :=
  ups.foldl addUnlockPath (cur.getD [])

/-- Whether `delete`'s propagation touches a live session `other`:
`targetUserGroups.includes(other.userId % 4) && other.id !== session.id`. -/
def propagationTargets (targetUserGroups : List Nat) (deleterId : String)
    (other : Session) : Bool :=
  targetUserGroups.contains (other.userId % 4) && other.id != deleterId

/-- `VFSEngine.delete(session, path)`.  `others` is the live-session
registry minus the deleting session (registry ids are unique `Map` keys, so
the source's `id !== session.id` test singles out exactly the deleter).
Returns the updated deleting session, the updated registry and the resolved
path.  Propagation happens before the unlink, as in the source;
`persistSession` is a write-through no-op for the in-memory state. -/
def deleteOp (session : Session) (others : List Session) (path : String) :
    Except String (Session × List Session × String) :=
  let resolvedPath := resolvePath session.currentPath path
  let parts := splitSegs resolvedPath
  match parts.getLast? with
  | none => .error ("No such file or directory: " ++ path)
  | some name =>
    let parentParts := parts.dropLast
    let parentPath := renderPath parentParts
    match getNode session.fsRoot parentPath with
    | some (.dir children pmeta) =>
      match childLookup children name with
      | none => .error ("No such file or directory: " ++ path)
      | some nodeToDelete =>
        let (sessionA, othersA) :=
          match nodeToDelete.meta.securityFile, nodeToDelete.meta.unlocksPaths with
          | true, some unlocksPaths =>
            let targetUserGroups := nodeToDelete.meta.targetUsers.getD []
            let others' := others.map fun o =>
              if propagationTargets targetUserGroups session.id o then
                { o with unlockedPaths := some (applyUnlocks unlocksPaths o.unlockedPaths) }
              else o
            let unlockedSessionIds :=
              (others.filter (propagationTargets targetUserGroups session.id)).map
                fun (o : Session) => o.id
            let newMeta : SessMeta :=
              { recentlyUnlockedSessions := some unlockedSessionIds,
                recentlyUnlockedPaths := some unlocksPaths }
            ({ session with meta := newMeta }, others')
          | _, _ => (session, others)
        let newRoot :=
          setNodeAt session.fsRoot parentParts (.dir (childRemove children name) pmeta)
        .ok ({ sessionA with fsRoot := newRoot }, othersA, resolvedPath)
    | _ => .error ("Invalid parent directory: " ++ parentPath)

/-! ### AI reactive engine (aiEngine.js) -/

/-- An AI message as returned to the transport layer (`sendMessage` adds a
timestamp, irrelevant here).  `shouldLogout` is the disconnect signal. -/
structure AIResponse where
  message : String
  shouldLogout : Bool := false
  deriving Repr, DecidableEq

/-- Clamp helper used throughout the engine. -/
def clampLevel (n : Int) : Int := max 0 (min n 10)

/-- `AIEngine.trigger(session, eventType, data)` acting on the AI state.
`randomVariation` is the `Math.floor(Math.random()*20) - 10` sample feeding
the cosmetic trace percentage; unknown events return `none` (`null`). -/
def trigger (st : AIState) (eventType : String) (randomVariation : Int) :
    AIState × Option AIResponse :=
  if eventType = "suspicious_command" then
    let level := min (st.level + 2) 10
    let status := if st.status = "idle" then "probing" else st.status
    let baseTrace := level * 10
    let tracePercent := max 0 (min 100 (baseTrace + randomVariation))
    if level ≥ 10 then
      let st' := { st with level := level, status := "alarm" }
      let resp : AIResponse :=
        { message := "[SECURITY] CRITICAL: Trace complete. Identity compromised.\n[SECURITY] Initiating emergency lockdown protocol...\n[SECURITY] Terminal access will be terminated.",
          shouldLogout := true }
      (st', some resp)
    else
      let status := if level ≥ 5 ∧ status = "probing" then "alarm" else status
      let st' := { st with level := level, status := status }
      let resp : AIResponse :=
        { message := "[SECURITY] Unauthorized access attempt detected. Trace: " ++
            toString tracePercent ++ "%" }
      (st', some resp)
  else if eventType = "failed_puzzle" then
    let level := min (st.level + 1) 10
    let status := if level ≥ 5 ∧ st.status = "probing" then "alarm" else st.status
    let st' := { st with level := level, status := status }
    let resp : AIResponse :=
      { message := "[SECURITY] Failed authentication detected. Security level increased." }
    (st', some resp)
  else if eventType = "admin_escalate" then
    let st' := { st with level := min (st.level + 3) 10, status := "alarm" }
    let resp : AIResponse :=
      { message := "[SECURITY] CRITICAL ALERT: System integrity compromised. Initiating countermeasures..." }
    (st', some resp)
  else (st, none)

/-- `AIEngine.validateChallenge(session, answer)` acting on the AI state;
the `Bool` is the `success` flag, `none` models the bare `false` returned
when no challenge is active. -/
def validateChallenge (st : AIState) (answer : String) : AIState × Option Bool :=
  match st.challenge with
  | none => (st, none)
  | some (_, expected) =>
    if jsToLower (jsTrim answer) = jsToLower expected then
      let level := max 0 (st.level - 2)
      let status := if level ≤ 2 then "idle" else st.status
      let st' := { st with level := level, status := status, challenge := none }
      (st', some true)
    else
      ({ st with level := min (st.level + 1) 10 }, some false)

/-- `AIEngine.setState(session, level, status)` (admin action); an absent or
empty status falls back to `'idle'`. -/
def setState (st : AIState) (level : Int) (status : Option String) : AIState :=
  let newStatus :=
    match status with
    | some s => if s = "" then "idle" else s
    | none => "idle"
  { st with level := max 0 (min level 10), status := newStatus }

/-! ### Puzzle engine (puzzleEngine.js) -/

/-- A validation rule: a raw `validate` string (`key:...`,
`file_contains:...`, anything else fails), or an author-supplied custom
predicate (`{type: 'function'}`, evaluated with session and context). -/
inductive VRule where
  | str (s : String)
  | custom (f : Session → String → String → Bool)

/-- One puzzle effect (`effect.action` dispatch); unrecognized actions are
ignored. -/
inductive Effect where
  | addFileEff (target contents : String) (meta : NodeMeta)
  | decryptEff (target : String)
  | unlockEff (target : String)
  | lockEff (target : String)
  | raiseAlert (level : Option Int)
  | unrecognized (action : String)

/-- An immutable loaded puzzle definition.  The source also reads a
`solved` flag off the definition itself in `checkDecrypt`; no loader or
code path ever sets it, so it is normally `false`. -/
structure Puzzle where
  id : String
  triggers : List (String × String)   -- (type, path)
  validate : Option VRule
  onSuccess : List Effect
  onFail : List Effect
  autoSolve : Bool := false
  solved : Bool := false

/-- JS `haystack.includes(needle)`: substring occurrence test. -/
def jsIncludes (haystack needle : String) : Bool :=
  go needle.toList haystack.toList
where
  go (sub : List Char) : List Char → Bool
    | [] => sub.isEmpty
    | c :: rest => sub.isPrefixOf (c :: rest) || go sub rest

/-- `PuzzleEngine.validateSolution(session, puzzle, context)` with context
`{key, filePath}`. -/
def validateSolution (session : Session) (puzzle : Puzzle)
    (key filePath : String) : Bool :=
  match puzzle.validate with
  | none => true
  | some (.str v) =>
    if jsStartsWith v "key:" then
      key == jsTrim (String.mk (v.toList.drop 4))
    else if jsStartsWith v "file_contains:" then
      let expectedText := jsTrim (String.mk (v.toList.drop 14))
      match readFile session filePath with
      | .ok (contents, _) => jsIncludes contents expectedText
      | .error _ => false
    else false
  | some (.custom f) => f session key filePath

/-- JS `effect.level || 1` — the amount added by a `raiseAlert` effect
(zero and absent are falsy and fall back to 1). -/
def raiseAmount : Option Int → Int
  | none => 1
  | some a => if a = 0 then 1 else a

/-- `PuzzleEngine.executeEffect(session, effect)`.  VFS failures propagate
as exceptions in the source; they surface here as `.error`. -/
def executeEffect (session : Session) (effect : Effect) : Except String Session :=
  match effect with
  | .addFileEff target contents meta =>
    match addFile session target contents meta with
    | .ok (newRoot, _) => .ok { session with fsRoot := newRoot }
    | .error e => .error e
  | .decryptEff target =>
    match getNode session.fsRoot target with
    | some (.file c m) =>
      if m.encrypted then
        let newNode : FSNode := .file c { m with encrypted := false, decrypted := true }
        .ok { session with fsRoot := setNodeAt session.fsRoot (splitSegs target) newNode }
      else .ok session
    | some (.dir ch m) =>
      if m.encrypted then
        let newNode : FSNode := .dir ch { m with encrypted := false, decrypted := true }
        .ok { session with fsRoot := setNodeAt session.fsRoot (splitSegs target) newNode }
      else .ok session
    | none => .ok session
  | .unlockEff target =>
    match setLock session target false with
    | .ok (newRoot, _, _) => .ok { session with fsRoot := newRoot }
    | .error e => .error e
  | .lockEff target =>
    match setLock session target true with
    | .ok (newRoot, _, _) => .ok { session with fsRoot := newRoot }
    | .error e => .error e
  | .raiseAlert amt =>
    let add := raiseAmount amt
    let st := session.aiState
    let level := min (st.level + add) 10
    let status := if st.status = "idle" then "probing" else st.status
    .ok { session with aiState := { st with level := level, status := status } }
  | .unrecognized _ => .ok session

/-- Sequential effect execution (`for ... await executeEffect`). -/
def executeEffects (session : Session) : List Effect → Except String Session
  | [] => .ok session
  | e :: rest =>
    match executeEffect session e with
    | .ok s' => executeEffects s' rest
    | .error err => .error err

/-- `PuzzleEngine.onSuccess(session, puzzle)`: record the puzzle solved in
the session's `puzzleState`, then run the success effects. -/
def onSuccess (session : Session) (puzzle : Puzzle) : Except String Session :=
  executeEffects
    { session with puzzleState := solvedInsert session.puzzleState puzzle.id }
    puzzle.onSuccess

/-- `PuzzleEngine.onFailure(session, puzzle)`: run the failure effects. -/
def onFailure (session : Session) (puzzle : Puzzle) : Except String Session :=
  executeEffects session puzzle.onFail

/-- The per-puzzle body of `checkDecrypt`: iterate the trigger list; every
`decrypt` trigger at `filePath` runs validation and then the success or
failure effects. -/
def checkDecryptTriggers (session : Session) (puzzle : Puzzle)
    (filePath key : String) : List (String × String) → Except String Session
  | [] => .ok session
  | (ttype, tpath) :: rest =>
    if ttype = "decrypt" ∧ tpath = filePath then
      let isValid := validateSolution session puzzle key filePath
      match (if isValid then onSuccess session puzzle else onFailure session puzzle) with
      | .ok s' => checkDecryptTriggers s' puzzle filePath key rest
      | .error e => .error e
    else checkDecryptTriggers session puzzle filePath key rest

/-- `PuzzleEngine.checkDecrypt(session, filePath, key)` over the loaded
puzzle list.  NOTE: the source skips a puzzle when `puzzle.solved` is set
on the immutable definition — not when `session.puzzleState[puzzle.id]`
records it solved (contrast `checkTrigger`, which checks the session). -/
def checkDecrypt (puzzles : List Puzzle) (session : Session)
    (filePath key : String) : Except String Session :=
  match puzzles with
  | [] => .ok session
  | puzzle :: rest =>
    if puzzle.solved then checkDecrypt rest session filePath key
    else
      match checkDecryptTriggers session puzzle filePath key puzzle.triggers with
      | .ok s' => checkDecrypt rest s' filePath key
      | .error e => .error e

/-! ### Session creation (sessionManager.js) -/

/-- The access-point group of a user: `userId % 4`. -/
def userAccessPoint (userId : Nat) : Nat := userId % 4

/-- The `initialUnlockedPaths` array seeded by `createSession`. -/
def initialUnlockedPaths (userId : Nat) : List String :=
  ["/", "/server_room",
   "/server_room/access_point_" ++ toString (userAccessPoint userId + 1)]

/-- The starting `currentPath` assigned by `createSession`. -/
def initialCurrentPath (userId : Nat) : String :=
  "/server_room/access_point_" ++ toString (userAccessPoint userId + 1)

/-! ## Helper lemmas -/

theorem mkStr_ne_empty {cs : List Char} (h : cs ≠ []) : String.mk cs ≠ "" := by
  intro he
  exact h (by simpa using congrArg String.data he)

theorem mem_splitSegs_ne_empty {s x : String} (hx : x ∈ splitSegs s) : x ≠ "" := by
  unfold splitSegs at hx
  obtain ⟨cs, hcs, rfl⟩ := List.mem_map.mp hx
  exact mkStr_ne_empty (of_decide_eq_true (List.mem_filter.mp hcs).2)

theorem isPrefixOf_self_append (a b : List Char) : a.isPrefixOf (a ++ b) = true := by
  induction a with
  | nil => simp [List.isPrefixOf]
  | cons c cs ih => simp [List.isPrefixOf, ih]

theorem jsStartsWith_self_append (t r : String) : jsStartsWith (t ++ r) t = true := by
  show t.toList.isPrefixOf (t ++ r).toList = true
  simp only [String.toList, String.data_append]
  exact isPrefixOf_self_append _ _

theorem renderPath_rooted (parts : List String) :
    jsStartsWith (renderPath parts) "/" = true :=
  jsStartsWith_self_append "/" (String.intercalate "/" parts)

theorem resolveParts_clean :
    ∀ (ts parts : List String),
      (∀ s ∈ parts, s ≠ "." ∧ s ≠ ".." ∧ s ≠ "") →
      (∀ t ∈ ts, t ≠ "") →
      ∀ s ∈ resolveParts parts ts, s ≠ "." ∧ s ≠ ".." ∧ s ≠ "" := by
  intro ts
  induction ts with
  | nil => intro parts hp _ s hs; exact hp s hs
  | cons t ts ih =>
    intro parts hp hts s hs
    by_cases h1 : t = "."
    · rw [resolveParts, if_pos h1] at hs
      exact ih parts hp (fun u hu => hts u (List.mem_cons_of_mem _ hu)) s hs
    · by_cases h2 : t = ".."
      · rw [resolveParts, if_neg h1, if_pos h2] at hs
        refine ih parts.dropLast ?_ (fun u hu => hts u (List.mem_cons_of_mem _ hu)) s hs
        exact fun u hu => hp u (List.dropLast_subset _ hu)
      · rw [resolveParts, if_neg h1, if_neg h2] at hs
        refine ih (parts ++ [t]) ?_ (fun u hu => hts u (List.mem_cons_of_mem _ hu)) s hs
        intro u hu
        rcases List.mem_append.mp hu with hu | hu
        · exact hp u hu
        · rcases List.mem_singleton.mp hu with rfl
          exact ⟨h1, h2, hts u (List.mem_cons_self _ _)⟩

/-! ## Claim C4 — path resolution -/

/-- C4, refuted as stated: an absolute target passes through `resolvePath`
verbatim, so the result can retain a `..` segment — the concrete input
`resolvePath("/", "/a/../b")` returns `"/a/../b"`, whose segment list
contains `".."`, contradicting "its result is always `/`-rooted with no
segment equal to `.`, `..`, or the empty string". -/
theorem claim4_counterexample :
    resolvePath "/" "/a/../b" = "/a/../b" ∧
    ".." ∈ splitSegs (resolvePath "/" "/a/../b") := by
  constructor
  · rfl
  · decide

/-- C4 as amended: absolute targets (leading `/`) pass through unchanged
(and are not normalized); for a nonempty relative target, provided the
current path has no `.`/`..` segments (the engine keeps `currentPath`
normalized), the result is `/`-rooted and its segment stack has no segment
equal to `.`, `..`, or the empty string (`.` is a no-op, `..` pops, popping
at root is a no-op, other segments push); in particular
`resolvePath("/a/b", "../c") = "/a/c"` and `resolvePath("/", "..") = "/"`. -/
theorem claim4_resolvePath_amended :
    (∀ currentPath target : String,
      jsStartsWith target "/" = true → resolvePath currentPath target = target) ∧
    (∀ currentPath target : String,
      target ≠ "" → jsStartsWith target "/" = false →
      (∀ s ∈ splitSegs currentPath, s ≠ "." ∧ s ≠ "..") →
      resolvePath currentPath target =
        renderPath (resolveParts (splitSegs currentPath) (splitSegs target)) ∧
      jsStartsWith (resolvePath currentPath target) "/" = true ∧
      ∀ s ∈ resolveParts (splitSegs currentPath) (splitSegs target),
        s ≠ "." ∧ s ≠ ".." ∧ s ≠ "") ∧
    resolvePath "/a/b" "../c" = "/a/c" ∧ resolvePath "/" ".." = "/" := by
  refine ⟨?_, ?_, rfl, rfl⟩
  · intro c t ht
    have hne : t ≠ "" := by
      intro h
      rw [h] at ht
      exact absurd ht (by decide)
    rw [resolvePath, if_neg hne, if_pos ht]
  · intro c t ht habs hcur
    have hres : resolvePath c t =
        renderPath (resolveParts (splitSegs c) (splitSegs t)) := by
      rw [resolvePath, if_neg ht, habs]
      simp
    refine ⟨hres, ?_, ?_⟩
    · rw [hres]; exact renderPath_rooted _
    · exact resolveParts_clean (splitSegs t) (splitSegs c)
        (fun s hs => ⟨(hcur s hs).1, (hcur s hs).2, mem_splitSegs_ne_empty hs⟩)
        (fun u hu => mem_splitSegs_ne_empty hu)

/-- Witness for the amended C4 at concrete inputs. -/
theorem claim4_witness :
    resolvePath "/srv" "/abs/x" = "/abs/x" ∧
    (resolvePath "/a/b" "c/./../d" =
        renderPath (resolveParts (splitSegs "/a/b") (splitSegs "c/./../d")) ∧
      jsStartsWith (resolvePath "/a/b" "c/./../d") "/" = true ∧
      ∀ s ∈ resolveParts (splitSegs "/a/b") (splitSegs "c/./../d"),
        s ≠ "." ∧ s ≠ ".." ∧ s ≠ "") := by
  refine ⟨claim4_resolvePath_amended.1 "/srv" "/abs/x" (by decide), ?_⟩
  exact claim4_resolvePath_amended.2.1 "/a/b" "c/./../d" (by decide) (by decide)
    (by decide)

/-! ## Claim C3 — root membership unlocks every absolute path -/

/-- C3, confirmed: `createSession` seeds `unlockedPaths` with `/`, and for
any session whose `unlockedPaths` set contains `/`, `isPathUnlocked` returns
`true` on every absolute path (every string starting with `/` textually
starts with the member `/`), so the unlock test never denies such a session
and only the `locked` metadata flag can restrict it. -/
theorem claim3_root_unlocks_all :
    (∀ userId : Nat, "/" ∈ initialUnlockedPaths userId) ∧
    (∀ (session : Session) (ups : List String) (path : String),
      session.unlockedPaths = some ups → "/" ∈ ups →
      jsStartsWith path "/" = true → isPathUnlocked session path = true) := by
  constructor
  · intro userId
    simp [initialUnlockedPaths]
  · intro session ups path hups hroot habs
    rw [isPathUnlocked, hups]
    have : ups.any (fun unlocked => jsStartsWith path unlocked) = true :=
      List.any_eq_true.mpr ⟨"/", hroot, habs⟩
    simp [this]

/-- Witness for C3: a concrete session with `/` unlocked can see an
arbitrary deep absolute path. -/
theorem claim3_witness :
    ({ id := "s", userId := 7,
       fsRoot := .dir [] {}, currentPath := "/",
       unlockedPaths := some (initialUnlockedPaths 7), puzzleState := [],
       aiState := {} } : Session).unlockedPaths = some (initialUnlockedPaths 7) ∧
    "/" ∈ initialUnlockedPaths 7 ∧
    jsStartsWith "/deep/hidden/vault" "/" = true ∧
    isPathUnlocked
      { id := "s", userId := 7,
        fsRoot := .dir [] {}, currentPath := "/",
        unlockedPaths := some (initialUnlockedPaths 7), puzzleState := [],
        aiState := {} } "/deep/hidden/vault" = true := by
  refine ⟨rfl, claim3_root_unlocks_all.1 7, by decide, ?_⟩
  exact claim3_root_unlocks_all.2 _ _ _ rfl (claim3_root_unlocks_all.1 7) (by decide)

/-! ## Claim C2 — locked directories and `list` -/

/-- Fixture: a session whose root holds a locked directory `d` with an
unlocked subdirectory `sub`, and `/` in `unlockedPaths`. -/
def lockedFixture : Session :=
  { id := "s", userId := 0,
    fsRoot := .dir [("d", .dir [("sub", .dir [("f", .file "hi" {})] {})]
      { locked := true })] {},
    currentPath := "/", unlockedPaths := some ["/"], puzzleState := [],
    aiState := {} }

/-- C2, refuted as stated: `list` checks the `locked` flag only on the node
at the listed path, never on its ancestors, so listing an unlocked,
accessible descendant of a locked directory succeeds.  Concretely, with `/d`
locked, `list` fails on `/d` but succeeds on `/d/sub`. -/
theorem claim2_counterexample :
    list lockedFixture "/d" = .error "Permission denied: /d is locked" ∧
    list lockedFixture "/d/sub" =
      .ok [{ name := "f", type := "file", size := some 2, meta := {} }] := by
  constructor <;> rfl

/-- C2 as amended: `list` fails with permission-denied on the path of a
locked directory itself, for every session; a descendant path is rejected
only when the descendant node reached by the lookup is itself locked or not
accessible — ancestors' `locked` flags are not consulted, so an unlocked
accessible descendant of a locked directory lists successfully. -/
theorem claim2_list_locked_denied
    (session : Session) (path : String)
    (children : List (String × FSNode)) (m : NodeMeta)
    (hnode : getNode session.fsRoot (resolvePath session.currentPath path) =
      some (.dir children m))
    (hlocked : m.locked = true) :
    list session path = .error ("Permission denied: " ++ path ++ " is locked") := by
  rw [list]
  simp only [hnode, hlocked, if_pos]

/-- Witness for the amended C2: listing the locked `/d` of the fixture is
denied. -/
theorem claim2_witness :
    getNode lockedFixture.fsRoot (resolvePath lockedFixture.currentPath "/d") =
      some (.dir [("sub", .dir [("f", .file "hi" {})] {})] { locked := true }) ∧
    ({ locked := true } : NodeMeta).locked = true ∧
    list lockedFixture "/d" = .error ("Permission denied: " ++ "/d" ++ " is locked") := by
  refine ⟨rfl, rfl, ?_⟩
  exact claim2_list_locked_denied lockedFixture "/d" _ _ rfl rfl

/-! ## Claim C5 — level 10 and the disconnect signal -/

/-- Iterated `failed_puzzle` events (the random trace variation is unused by
this event type; `0` is passed). -/
def iterFailedPuzzle : Nat → AIState → AIState
  | 0, st => st
  | n + 1, st => iterFailedPuzzle n (trigger st "failed_puzzle" 0).1

/-- C5, refuted as stated: ten `failed_puzzle` events from the initial AI
state drive the level to 10 while the status remains `idle` (the
`probing → alarm` escalation never fires from `idle`), and the tenth event's
response is the normal failed-authentication message with no disconnect
signal. -/
theorem claim5_counterexample :
    (iterFailedPuzzle 10 {}).level = 10 ∧
    (iterFailedPuzzle 10 {}).status = "idle" ∧
    (trigger (iterFailedPuzzle 9 {}) "failed_puzzle" 0).1.level = 10 ∧
    (trigger (iterFailedPuzzle 9 {}) "failed_puzzle" 0).2 =
      some { message := "[SECURITY] Failed authentication detected. Security level increased.",
             shouldLogout := false } := by
  refine ⟨by decide, by decide, by decide, by decide⟩

/-- C5 as amended: only a `suspicious_command` event carries the lockdown
response — whenever a `suspicious_command` event raises the level to 10
(prior level at least 8), the resulting status is `alarm` and the response
carries the disconnect (`shouldLogout`) signal; `failed_puzzle` and
`admin_escalate` events never set the disconnect signal, even at level 10. -/
theorem claim5_suspicious_lockdown
    (st : AIState) (randomVariation : Int) (h : st.level ≥ 8) :
    ((trigger st "suspicious_command" randomVariation).1.level = 10 ∧
      (trigger st "suspicious_command" randomVariation).1.status = "alarm" ∧
      (trigger st "suspicious_command" randomVariation).2.map AIResponse.shouldLogout =
        some true) ∧
    ((trigger st "failed_puzzle" randomVariation).2.map AIResponse.shouldLogout =
      some false) ∧
    ((trigger st "admin_escalate" randomVariation).2.map AIResponse.shouldLogout =
      some false) := by
  have hmin : min (st.level + 2) 10 = 10 := by omega
  constructor
  · rw [trigger]
    simp only [if_pos rfl, hmin]
    simp
  · constructor
    · rw [trigger]
      simp
    · rw [trigger]
      simp

/-- Witness for the amended C5 at a concrete state of level 9. -/
theorem claim5_witness :
    ({ level := 9, status := "alarm" } : AIState).level ≥ 8 ∧
    ((trigger { level := 9, status := "alarm" } "suspicious_command" 3).1.level = 10 ∧
      (trigger { level := 9, status := "alarm" } "suspicious_command" 3).1.status = "alarm" ∧
      (trigger { level := 9, status := "alarm" } "suspicious_command" 3).2.map
        AIResponse.shouldLogout = some true) ∧
    ((trigger { level := 9, status := "alarm" } "failed_puzzle" 3).2.map
      AIResponse.shouldLogout = some false) ∧
    ((trigger { level := 9, status := "alarm" } "admin_escalate" 3).2.map
      AIResponse.shouldLogout = some false) :=
  ⟨by decide, claim5_suspicious_lockdown { level := 9, status := "alarm" } 3 (by decide)⟩

/-! ## Claim C6 — AI level bounds -/

/-- The claimed invariant: the AI level lies in `[0, 10]`. -/
def levelInv (st : AIState) : Prop := 0 ≤ st.level ∧ st.level ≤ 10

/-- Fixture: a minimal session at AI level 0. -/
def c6Session : Session :=
  { id := "s", userId := 0, fsRoot := .dir [] {}, currentPath := "/",
    unlockedPaths := none, puzzleState := [], aiState := {} }

/-- Projection of the AI level out of an effect-execution result. -/
def levelAfter (r : Except String Session) : Int :=
  match r with
  | .ok s' => s'.aiState.level
  | .error _ => 0

/-- C6, refuted as stated: the `raiseAlert` effect adds `effect.level || 1`
with only an upper cap (`Math.min(…, 10)`) and no lower clamp, so a negative
amount drives the level below 0 — from level 0, `raiseAlert` with amount −5
leaves the level at −5. -/
theorem claim6_counterexample :
    levelAfter (executeEffect c6Session (.raiseAlert (some (-5)))) = -5 ∧
    (-5 : Int) < 0 :=
  ⟨rfl, by decide⟩

/-- C6 as amended: the AI level stays within `[0, 10]` across every trigger
event (any event type, both the capped increments and the no-op default),
challenge validation, admin `setState`, and the `raiseAlert` puzzle effect
whenever its amount (`effect.level || 1`) is nonnegative; a `raiseAlert`
with a negative amount can drive the level below 0. -/
theorem claim6_ai_level_bounds :
    (∀ (st : AIState) (eventType : String) (randomVariation : Int),
      levelInv st → levelInv (trigger st eventType randomVariation).1) ∧
    (∀ (st : AIState) (answer : String),
      levelInv st → levelInv (validateChallenge st answer).1) ∧
    (∀ (st : AIState) (lvl : Int) (status : Option String),
      levelInv (setState st lvl status)) ∧
    (∀ (s : Session) (amt : Option Int) (s' : Session),
      0 ≤ raiseAmount amt → levelInv s.aiState →
      executeEffect s (.raiseAlert amt) = .ok s' → levelInv s'.aiState) := by
  refine ⟨?_, ?_, ?_, ?_⟩
  · intro st ev rand hinv
    obtain ⟨h0, h10⟩ := hinv
    unfold trigger
    dsimp only
    split_ifs <;> refine ⟨?_, ?_⟩ <;> dsimp only <;> omega
  · intro st answer hinv
    obtain ⟨h0, h10⟩ := hinv
    unfold validateChallenge
    rcases st.challenge with _ | ⟨q, a⟩
    · exact ⟨h0, h10⟩
    · dsimp only
      split_ifs <;> refine ⟨?_, ?_⟩ <;> dsimp only <;> omega
  · intro st lvl status
    refine ⟨?_, ?_⟩ <;> simp [setState]
  · intro s amt s' hamt hinv heq
    obtain ⟨h0, h10⟩ := hinv
    simp only [executeEffect, Except.ok.injEq] at heq
    subst heq
    exact ⟨by dsimp only; omega, by dsimp only; omega⟩

/-- Fixture: `c6Session` after a `raiseAlert` of amount 4. -/
def c6SessionRaised : Session :=
  { c6Session with aiState := { level := 4, status := "probing" } }

/-- Witness for the amended C6 at concrete states. -/
theorem claim6_witness :
    levelInv (trigger { level := 9, status := "probing" } "suspicious_command" 0).1 ∧
    levelInv (validateChallenge
      { level := 1, status := "probing", challenge := some ("q", "13") } "13").1 ∧
    levelInv (setState {} 99 none) ∧
    levelInv c6SessionRaised.aiState := by
  refine ⟨?_, ?_, ?_, ?_⟩
  · exact claim6_ai_level_bounds.1 _ "suspicious_command" 0 (by constructor <;> decide)
  · exact claim6_ai_level_bounds.2.1 _ "13" (by constructor <;> decide)
  · exact claim6_ai_level_bounds.2.2.1 {} 99 none
  · exact claim6_ai_level_bounds.2.2.2 c6Session (some 4) c6SessionRaised
      (by decide) (by constructor <;> decide) rfl

/-! ## Claim C9 — rename/move conflicts -/

/-- C9, confirmed: `rename` fails with a conflict error whenever the new
name already exists among the source's siblings, and `move` fails with a
conflict error whenever the target directory already has an entry with the
source's name; in both cases every throw precedes every mutation in the
source, so the session (and its filesystem tree) is returned unchanged. -/
theorem claim9_conflict_errors :
    (∀ (session : Session) (path newName oldName : String)
       (children : List (String × FSNode)) (pm : NodeMeta) (node node2 : FSNode),
      (splitSegs (resolvePath session.currentPath path)).getLast? = some oldName →
      getNode session.fsRoot
        (renderPath (splitSegs (resolvePath session.currentPath path)).dropLast) =
        some (.dir children pm) →
      childLookup children oldName = some node →
      childLookup children newName = some node2 →
      runRename session path newName =
        (session, .error ("File or directory already exists: " ++ newName))) ∧
    (∀ (session : Session) (sourcePath targetPath sourceName : String)
       (srcNode node2 : FSNode) (tch : List (String × FSNode)) (tm : NodeMeta),
      getNode session.fsRoot (resolvePath session.currentPath sourcePath) =
        some srcNode →
      getNode session.fsRoot (resolvePath session.currentPath targetPath) =
        some (.dir tch tm) →
      (splitSegs (resolvePath session.currentPath sourcePath)).getLast? =
        some sourceName →
      childLookup tch sourceName = some node2 →
      runMove session sourcePath targetPath =
        (session, .error ("File or directory already exists in target: " ++ sourceName))) := by
  constructor
  · intro session path newName oldName children pm node node2 h1 h2 h3 h4
    rw [runRename, rename]
    simp only [h1, h2, h3, h4]
  · intro session sourcePath targetPath sourceName srcNode node2 tch tm h1 h2 h3 h4
    rw [runMove, move]
    simp only [h1, h2, h3, h4]

/-- Fixture: a session with files `a`, `b` and a directory `t` already
containing an entry `a`. -/
def conflictFixture : Session :=
  { id := "s", userId := 0,
    fsRoot := .dir [("a", .file "1" {}), ("b", .file "2" {}),
      ("t", .dir [("a", .file "3" {})] {})] {},
    currentPath := "/", unlockedPaths := none, puzzleState := [], aiState := {} }

/-- Witness for C9: renaming `/a` to the existing sibling name `b` and
moving `/a` into `/t` (which already has an `a`) both fail with conflict and
leave the session unchanged. -/
theorem claim9_witness :
    runRename conflictFixture "/a" "b" =
      (conflictFixture, .error ("File or directory already exists: " ++ "b")) ∧
    runMove conflictFixture "/a" "/t" =
      (conflictFixture, .error ("File or directory already exists in target: " ++ "a")) := by
  constructor
  · exact claim9_conflict_errors.1 conflictFixture "/a" "b" "a" _ _ (.file "1" {})
      (.file "2" {}) rfl rfl rfl rfl
  · exact claim9_conflict_errors.2 conflictFixture "/a" "/t" "a" (.file "1" {})
      (.file "3" {}) _ _ rfl rfl rfl rfl

/-! ## Claim C10 — search scans everything -/

theorem childLookup_mem :
    ∀ {ch : List (String × FSNode)} {s : String} {c : FSNode},
      childLookup ch s = some c → (s, c) ∈ ch := by
  intro ch
  induction ch with
  | nil => intro s c h; exact absurd h (by simp [childLookup])
  | cons hd tl ih =>
    intro s c h
    obtain ⟨n, c0⟩ := hd
    rw [childLookup] at h
    by_cases hn : n = s
    · rw [if_pos hn] at h
      cases h
      subst hn
      exact List.mem_cons_self _ _
    · rw [if_neg hn] at h
      exact List.mem_cons_of_mem _ (ih h)

theorem mem_searchChildren {test : String → Bool}
    {ch : List (String × FSNode)} {name : String} {child : FSNode}
    (hmem : (name, child) ∈ ch) {p : String} {e : SearchHit}
    (he : e ∈ searchNode test child (childPath p name)) :
    e ∈ searchChildren test ch p := by
  induction ch with
  | nil => cases hmem
  | cons hd tl ih =>
    obtain ⟨n, c0⟩ := hd
    rw [searchChildren]
    rcases List.mem_cons.mp hmem with heq | hmem'
    · cases heq
      exact List.mem_append_left _ he
    · exact List.mem_append_right _ (ih hmem')

theorem searchNode_complete (test : String → Bool) :
    ∀ (segs : List String) (node : FSNode) (p : String)
      (contents : String) (m : NodeMeta),
      getNodeSegs node segs = some (.file contents m) →
      (test (segs.foldl childPath p) || test contents) = true →
      ({ path := segs.foldl childPath p, type := "file",
         matchedOn := if test (segs.foldl childPath p) then "filename" else "content" }
        : SearchHit) ∈ searchNode test node p := by
  intro segs
  induction segs with
  | nil =>
    intro node p contents m hget htest
    rw [getNodeSegs] at hget
    cases hget
    rw [searchNode]
    simp only [List.foldl_nil] at htest ⊢
    rw [if_pos htest]
    exact List.mem_singleton.mpr rfl
  | cons s rest ih =>
    intro node p contents m hget htest
    cases node with
    | file c' m' => exact absurd hget (by rw [getNodeSegs]; simp)
    | dir ch m' =>
      rw [getNodeSegs] at hget
      rcases hc : childLookup ch s with _ | c
      · rw [hc] at hget; cases hget
      · rw [hc] at hget
        rw [searchNode]
        exact mem_searchChildren (childLookup_mem hc)
          (ih c (childPath p s) contents m hget htest)

/-- C10, confirmed: `search` reads only the session's tree root — changing
`unlockedPaths` never changes the result — and it returns an entry for every
file whose canonical path or contents match the (case-insensitive regular
expression, abstracted here as the predicate `test`), for arbitrary node
metadata along the way: in particular the file itself and any of its
ancestors may carry `locked := true` and the session's `unlockedPaths` may be
empty.  `segs.foldl childPath "/"` is the canonical path `search` builds for
the file reached by child names `segs`. -/
theorem claim10_search_unfiltered :
    (∀ (session : Session) (test : String → Bool) (up' : Option (List String)),
      search { session with unlockedPaths := up' } test = search session test) ∧
    (∀ (session : Session) (test : String → Bool) (segs : List String)
       (contents : String) (m : NodeMeta),
      getNodeSegs session.fsRoot segs = some (.file contents m) →
      (test (segs.foldl childPath "/") || test contents) = true →
      ({ path := segs.foldl childPath "/", type := "file",
         matchedOn := if test (segs.foldl childPath "/") then "filename" else "content" }
        : SearchHit) ∈ search session test) := by
  constructor
  · intro session test up'
    rfl
  · intro session test segs contents m hget htest
    exact searchNode_complete test segs session.fsRoot "/" contents m hget htest

/-- Fixture: a fully locked, fully inaccessible tree hiding a matching
file. -/
def searchFixture : Session :=
  { id := "s", userId := 0,
    fsRoot := .dir [("vault", .dir [("f.txt", .file "the secret plans"
      { locked := true })] { locked := true })] { locked := true },
    currentPath := "/", unlockedPaths := some [], puzzleState := [],
    aiState := {} }

/-- Witness for C10: the locked, inaccessible `/vault/f.txt` still shows up
in search results on a content match. -/
theorem claim10_witness :
    ({ path := ["vault", "f.txt"].foldl childPath "/", type := "file",
       matchedOn := if (fun s => jsIncludes s "secret") (["vault", "f.txt"].foldl childPath "/")
         then "filename" else "content" } : SearchHit)
      ∈ search searchFixture (fun s => jsIncludes s "secret") :=
  claim10_search_unfiltered.2 searchFixture (fun s => jsIncludes s "secret")
    ["vault", "f.txt"] "the secret plans" { locked := true } rfl (by decide)

/-! ## Claim C8 — checkDecrypt and already-solved puzzles -/

/-- Fixture: a puzzle with a `decrypt` trigger at `/sec/f`, key-equality
validation against `42`, and a success effect that raises the AI level by
3.  Its definition-level `solved` flag is `false`, as for every loaded
puzzle (nothing in the codebase ever sets it). -/
def c8Puzzle : Puzzle :=
  { id := "p1", triggers := [("decrypt", "/sec/f")],
    validate := some (.str "key:42"),
    onSuccess := [.raiseAlert (some 3)], onFail := [] }

/-- Fixture: a session that has already solved `p1` per its own
`puzzleState`, at AI level 0. -/
def c8Session : Session :=
  { id := "s", userId := 0, fsRoot := .dir [] {}, currentPath := "/",
    unlockedPaths := none, puzzleState := [("p1", true)], aiState := {} }

/-- C8: the code contradicts the claim.  `checkDecrypt` skips a puzzle only
when `puzzle.solved` is set on the immutable definition — which nothing
ever sets — instead of consulting `session.puzzleState` the way
`checkTrigger` does, so a decrypt at the trigger path re-runs validation
and re-executes the success effects of a puzzle the session has already
solved: here the already-solved `p1`'s `raiseAlert 3` effect fires again,
taking the AI level from 0 to 3. -/
theorem claim8_reexecutes_solved :
    solvedLookup c8Session.puzzleState c8Puzzle.id = true ∧
    c8Session.aiState.level = 0 ∧
    levelAfter (checkDecrypt [c8Puzzle] c8Session "/sec/f" "42") = 3 := by
  refine ⟨rfl, rfl, rfl⟩

/-! ## Claim C1 — delete propagation of unlocks -/

theorem mem_setAdd {l : List String} {x y : String} :
    x ∈ setAdd l y ↔ x ∈ l ∨ x = y := by
  unfold setAdd
  split_ifs with h
  · constructor
    · exact Or.inl
    · rintro (hx | rfl)
      · exact hx
      · exact h
  · simp [List.mem_append]

theorem mem_foldl_setAdd (l acc : List String) (x : String) :
    x ∈ l.foldl setAdd acc ↔ x ∈ acc ∨ x ∈ l := by
  induction l generalizing acc with
  | nil => simp
  | cons y ys ih =>
    rw [List.foldl_cons, ih, mem_setAdd]
    simp only [List.mem_cons]
    tauto

theorem mem_addUnlockPath (acc : List String) (p x : String) :
    x ∈ addUnlockPath acc p ↔ x ∈ acc ∨ x = p ∨ x ∈ ancestorChain p := by
  rw [addUnlockPath, mem_foldl_setAdd, mem_setAdd]
  tauto

theorem mem_foldl_addUnlockPath (ups acc : List String) (x : String) :
    x ∈ ups.foldl addUnlockPath acc ↔
      x ∈ acc ∨ ∃ p ∈ ups, x = p ∨ x ∈ ancestorChain p := by
  induction ups generalizing acc with
  | nil => simp
  | cons p ps ih =>
    rw [List.foldl_cons, ih, mem_addUnlockPath]
    simp only [List.exists_mem_cons_iff]
    rw [or_assoc]

theorem mem_applyUnlocks (ups : List String) (cur : Option (List String))
    (x : String) :
    x ∈ applyUnlocks ups cur ↔
      x ∈ cur.getD [] ∨ ∃ p ∈ ups, x = p ∨ x ∈ ancestorChain p :=
  mem_foldl_addUnlockPath ups (cur.getD []) x

/-- C1 as amended: when `delete` removes a node flagged `securityFile` with
`unlocksPaths` set, then for every other live session in the target group
(`userId mod 4` a member of `targetUsers`, id different from the deleter's),
the new `unlockedPaths` holds exactly the old members plus, for every path
`p` in `unlocksPaths`, `p` itself and its ancestor chain — the prefixes
with at least one segment (`ancestorChain p`); the root `/` is NOT among
the added ancestors (the source's prefix loop starts at one segment).
Sessions outside the target group are returned unchanged, and the deleting
session's own `unlockedPaths` is untouched. -/
theorem claim1_delete_propagation
    (session : Session) (others : List Session) (path : String)
    (name : String) (children : List (String × FSNode)) (pm : NodeMeta)
    (node : FSNode) (ups : List String)
    (h1 : (splitSegs (resolvePath session.currentPath path)).getLast? = some name)
    (h2 : getNode session.fsRoot
      (renderPath (splitSegs (resolvePath session.currentPath path)).dropLast) =
      some (.dir children pm))
    (h3 : childLookup children name = some node)
    (h4 : node.meta.securityFile = true)
    (h5 : node.meta.unlocksPaths = some ups) :
    ∃ d os, deleteOp session others path =
        .ok (d, os, resolvePath session.currentPath path) ∧
      d.unlockedPaths = session.unlockedPaths ∧
      os.length = others.length ∧
      ∀ (i : Nat) (o : Session), others[i]? = some o →
        (propagationTargets (node.meta.targetUsers.getD []) session.id o = true →
          os[i]? = some { o with
            unlockedPaths := some (applyUnlocks ups o.unlockedPaths) } ∧
          ∀ x : String, x ∈ applyUnlocks ups o.unlockedPaths ↔
            (x ∈ o.unlockedPaths.getD [] ∨ ∃ p ∈ ups, x = p ∨ x ∈ ancestorChain p)) ∧
        (propagationTargets (node.meta.targetUsers.getD []) session.id o = false →
          os[i]? = some o) := by
  rw [deleteOp]
  simp only [h1, h2, h3, h4, h5]
  refine ⟨_, _, rfl, rfl, List.length_map _ _, ?_⟩
  intro i o hio
  constructor
  · intro htgt
    constructor
    · rw [List.getElem?_map, hio]
      simp only [Option.map_some']
      rw [if_pos htgt]
    · intro x
      exact mem_applyUnlocks ups o.unlockedPaths x
  · intro htgt
    rw [List.getElem?_map, hio]
    simp only [Option.map_some']
    rw [if_neg (by simp [htgt])]

/-- Fixture: a deleting session owning `/sec`, a security file unlocking
`/x` for user group 1. -/
def c1Deleter : Session :=
  { id := "sA", userId := 0,
    fsRoot := .dir [("sec", .file "classified"
      { securityFile := true, unlocksPaths := some ["/x"],
        targetUsers := some [1] })] {},
    currentPath := "/", unlockedPaths := some ["/"], puzzleState := [],
    aiState := {} }

/-- Fixture: a live session in target group 1 whose `unlockedPaths` starts
empty. -/
def c1Target : Session :=
  { id := "sB", userId := 1, fsRoot := .dir [] {}, currentPath := "/",
    unlockedPaths := some [], puzzleState := [], aiState := {} }

/-- Fixture: a live session outside the target group (`userId mod 4 = 2`). -/
def c1Other : Session :=
  { id := "sC", userId := 2, fsRoot := .dir [] {}, currentPath := "/",
    unlockedPaths := some ["/q"], puzzleState := [], aiState := {} }

/-- Projection: the registry's `unlockedPaths` after a delete. -/
def unlockedAfterDelete (r : Except String (Session × List Session × String)) :
    List (Option (List String)) :=
  match r with
  | .ok (_, os, _) => os.map fun o => o.unlockedPaths
  | .error _ => []

/-- C1, refuted as stated on its root-ancestor part: deleting the security
file with `unlocksPaths = ["/x"]`, `targetUsers = [1]` leaves the targeted
session's `unlockedPaths` as exactly `{"/x"}` — the ancestor prefix `/` is
NOT added (the source's prefix loop starts at one segment, and the spec's
own example expects `/x` *and* `/`). -/
theorem claim1_counterexample :
    unlockedAfterDelete (deleteOp c1Deleter [c1Target] "/sec") = [some ["/x"]] ∧
    "/" ∉ (["/x"] : List String) :=
  ⟨rfl, by decide⟩

/-- Witness for the amended C1 on the concrete two-session registry. -/
theorem claim1_witness :
    ∃ d os, deleteOp c1Deleter [c1Target, c1Other] "/sec" =
        .ok (d, os, resolvePath c1Deleter.currentPath "/sec") ∧
      d.unlockedPaths = c1Deleter.unlockedPaths ∧
      os.length = [c1Target, c1Other].length ∧
      ∀ (i : Nat) (o : Session), [c1Target, c1Other][i]? = some o →
        (propagationTargets [1] c1Deleter.id o = true →
          os[i]? = some { o with
            unlockedPaths := some (applyUnlocks ["/x"] o.unlockedPaths) } ∧
          ∀ x : String, x ∈ applyUnlocks ["/x"] o.unlockedPaths ↔
            (x ∈ o.unlockedPaths.getD [] ∨
              ∃ p ∈ (["/x"] : List String), x = p ∨ x ∈ ancestorChain p)) ∧
        (propagationTargets [1] c1Deleter.id o = false →
          os[i]? = some o) :=
  claim1_delete_propagation c1Deleter [c1Target, c1Other] "/sec" "sec" _ _
    (.file "classified"
      { securityFile := true, unlocksPaths := some ["/x"], targetUsers := some [1] })
    ["/x"] rfl rfl rfl rfl rfl

/-! ## Claim C7 — decrypt inverts the XOR scheme -/

/-- Hex digit character (lowercase), for the claim-side encoder. -/
def hexDigitChar (d : Nat) : Char :=
  if d < 10 then Char.ofNat (48 + d) else Char.ofNat (87 + d)

/-- Two-digit hex rendering of a byte. -/
def hexByte (b : Nat) : List Char :=
  [hexDigitChar (b / 16), hexDigitChar (b % 16)]

/-- The claim-side encoder (stated from the spec's words, to be inverted by
the source's `decrypt`): the tagged hex encoding of the plaintext bytes
XOR-ed bytewise with the key. -/
def xorEncrypt (P : List Nat) (K : Nat) : String :=
  "ENCRYPTED:XOR:" ++ String.mk ((P.map fun b => b ^^^ K).flatMap hexByte)

/-- The string holding the plaintext bytes `P` as characters, as
`String.fromCharCode` builds it. -/
def plainString (P : List Nat) : String :=
  String.mk (P.map fromCharCode)

theorem hexDigitVal_hexDigitChar : ∀ d : Nat, d < 16 →
    hexDigitVal (hexDigitChar d) = some d := by decide

theorem parseHexPair_hexByte (b : Nat) (hb : b < 256) :
    parseHexPair (hexDigitChar (b / 16)) (hexDigitChar (b % 16)) = some b := by
  have h1 : b / 16 < 16 := by omega
  have h2 : b % 16 < 16 := by omega
  have hsum : b / 16 * 16 + b % 16 = b := by omega
  rw [parseHexPair, hexDigitVal_hexDigitChar _ h1, hexDigitVal_hexDigitChar _ h2]
  show some (b / 16 * 16 + b % 16) = some b
  rw [hsum]

theorem chunkPairs_flatMap_hexByte (bs : List Nat) :
    chunkPairs (bs.flatMap hexByte) =
      bs.map fun b => (hexDigitChar (b / 16), hexDigitChar (b % 16)) := by
  induction bs with
  | nil => rfl
  | cons b rest ih =>
    rw [List.flatMap_cons, List.map_cons]
    show chunkPairs (hexDigitChar (b / 16) :: hexDigitChar (b % 16) ::
      rest.flatMap hexByte) = _
    rw [chunkPairs, ih]

theorem decryptBytes_flatMap (bs : List Nat) (k : Nat)
    (hbs : ∀ b ∈ bs, b < 256) :
    decryptBytes (bs.flatMap hexByte) k = bs.map (· ^^^ k) := by
  rw [decryptBytes, chunkPairs_flatMap_hexByte, List.map_map]
  refine List.map_congr_left ?_
  intro b hb
  simp only [Function.comp_apply, parseHexPair_hexByte b (hbs b hb), Option.getD_some]

theorem childLookup_childInsert (ch : List (String × FSNode)) (s : String)
    (v : FSNode) : childLookup (childInsert ch s v) s = some v := by
  induction ch with
  | nil => simp [childInsert, childLookup]
  | cons hd tl ih =>
    obtain ⟨n, c0⟩ := hd
    rw [childInsert]
    by_cases hn : n = s
    · rw [if_pos hn, childLookup, if_pos hn]
    · rw [if_neg hn, childLookup, if_neg hn]
      exact ih

theorem getNodeSegs_setNodeAt :
    ∀ (segs : List String) (root oldNode newNode : FSNode),
      getNodeSegs root segs = some oldNode →
      getNodeSegs (setNodeAt root segs newNode) segs = some newNode := by
  intro segs
  induction segs with
  | nil => intro root oldNode newNode _; cases newNode <;> cases root <;> rfl
  | cons s rest ih =>
    intro root oldNode newNode hget
    cases root with
    | file c m => exact absurd hget (by rw [getNodeSegs]; simp)
    | dir ch m =>
      rw [getNodeSegs] at hget
      rcases hc : childLookup ch s with _ | c
      · rw [hc] at hget; cases hget
      · rw [hc] at hget
        rw [setNodeAt, hc, getNodeSegs, childLookup_childInsert]
        exact ih c oldNode newNode hget

theorem fromCharCode_toNat (n : Nat) (h : n < 256) : (fromCharCode n).toNat = n := by
  have hm : n % 65536 = n := Nat.mod_eq_of_lt (by omega)
  have hv : (n % 65536).isValidChar := by rw [hm]; exact Or.inl (by omega)
  rw [fromCharCode, Char.ofNat, dif_pos hv]
  show (n % 65536) = n
  exact hm

theorem drop14_tag (r : String) :
    ("ENCRYPTED:XOR:" ++ r).toList.drop 14 = r.toList := by
  show (("ENCRYPTED:XOR:" ++ r).data).drop 14 = r.data
  have h14 : (14 : Nat) = ("ENCRYPTED:XOR:" : String).data.length := rfl
  rw [String.data_append, h14]
  exact List.drop_left _ _

/-- Projection: the plaintext a decrypt call returned, if it succeeded. -/
def decOut (r : Except String (FSNode × String)) : Option String :=
  match r with
  | .ok (_, out) => some out
  | .error _ => none

/-- Projection: the node at `p` in the tree a decrypt call returned. -/
def decNodeAt (r : Except String (FSNode × String)) (p : String) : Option FSNode :=
  match r with
  | .ok (root, _) => getNode root p
  | .error _ => none

/-- Decrypting a tagged-hex XOR-encoded file with any parsed integer key
`K'` succeeds and XORs each encoded byte with `K'`. -/
theorem decrypt_encoded (session : Session) (path : String) (P : List Nat)
    (K K' : Nat) (m : NodeMeta)
    (hP : ∀ b ∈ P, b < 256) (hK : K < 256)
    (hnode : getNode session.fsRoot (resolvePath session.currentPath path) =
      some (.file (xorEncrypt P K) m))
    (henc : m.encrypted = true) :
    decrypt session path (some K') =
      .ok (setNodeAt session.fsRoot (splitSegs (resolvePath session.currentPath path))
          (.file (plainString (P.map fun b => b ^^^ K ^^^ K'))
            { m with encrypted := false, decrypted := true }),
        plainString (P.map fun b => b ^^^ K ^^^ K')) := by
  have hsw : jsStartsWith (xorEncrypt P K) "ENCRYPTED:XOR:" = true := by
    rw [xorEncrypt]
    exact jsStartsWith_self_append _ _
  have hdrop : (xorEncrypt P K).toList.drop 14 =
      (P.map fun b => b ^^^ K).flatMap hexByte := by
    rw [xorEncrypt]
    exact drop14_tag _
  have hbound : ∀ b ∈ P.map (fun b => b ^^^ K), b < 256 := by
    intro b hb
    obtain ⟨p, hp, rfl⟩ := List.mem_map.mp hb
    have : p ^^^ K < 2 ^ 8 :=
      Nat.xor_lt_two_pow (by simpa using hP p hp) (by simpa using hK)
    simpa using this
  rw [decrypt]
  simp only [hnode, henc, Bool.not_true, Bool.false_eq_true, if_false, hsw, if_true,
    hdrop, decryptBytes_flatMap _ _ hbound, List.map_map]
  have hcomp : (fromCharCode ∘ (fun x => x ^^^ K') ∘ fun b => b ^^^ K) =
      (fromCharCode ∘ fun b => b ^^^ K ^^^ K') := funext fun b => rfl
  simp [plainString, List.map_map, hcomp]

/-- C7, confirmed: for a file whose contents are the tagged hex encoding of
plaintext bytes `P` XOR-ed with a key `K ∈ [0,255]`, decrypting with `K`
succeeds, returns the plaintext, and replaces the file's contents with it
(clearing `encrypted`, setting `decrypted`); decrypting the same encrypted
file with any other parsed integer key `K' ∈ [0,255]` also succeeds,
returning the bytes re-XORed with the wrong key — garbage different from
the plaintext, not an error. -/
theorem claim7_decrypt_inverse (P : List Nat) (K K' : Nat) (session : Session)
    (path : String) (m : NodeMeta)
    (hP : ∀ b ∈ P, b < 256) (hK : K < 256) (hK' : K' < 256)
    (hne : K' ≠ K) (hPne : P ≠ [])
    (hnode : getNode session.fsRoot (resolvePath session.currentPath path) =
      some (.file (xorEncrypt P K) m))
    (henc : m.encrypted = true) :
    decOut (decrypt session path (some K)) = some (plainString P) ∧
    decNodeAt (decrypt session path (some K)) (resolvePath session.currentPath path) =
      some (.file (plainString P) { m with encrypted := false, decrypted := true }) ∧
    decOut (decrypt session path (some K')) =
      some (plainString (P.map fun b => b ^^^ K ^^^ K')) ∧
    plainString (P.map fun b => b ^^^ K ^^^ K') ≠ plainString P := by
  have hPid : P.map (fun b => b ^^^ K ^^^ K) = P := by
    have h1 : ∀ b ∈ P, b ^^^ K ^^^ K = id b := fun b _ => Nat.xor_cancel_right K b
    exact (List.map_congr_left h1).trans (List.map_id P)
  have hright := decrypt_encoded session path P K K m hP hK hnode henc
  have hwrong := decrypt_encoded session path P K K' m hP hK hnode henc
  rw [hPid] at hright
  refine ⟨?_, ?_, ?_, ?_⟩
  · rw [hright]
    rfl
  · rw [hright]
    show getNode (setNodeAt session.fsRoot
      (splitSegs (resolvePath session.currentPath path)) _)
      (resolvePath session.currentPath path) = _
    exact getNodeSegs_setNodeAt _ _ _ _ hnode
  · rw [hwrong]
    rfl
  · intro heq
    rcases P with _ | ⟨b, rest⟩
    · exact hPne rfl
    have hdata := congrArg String.data heq
    simp only [plainString, List.map_cons] at hdata
    have hhead : fromCharCode (b ^^^ K ^^^ K') = fromCharCode b := by
      have := List.head_eq_of_cons_eq hdata
      exact this
    have hb : b < 256 := hP b (List.mem_cons_self _ _)
    have hbk : b ^^^ K ^^^ K' < 256 := by
      have h1 : b ^^^ K < 2 ^ 8 :=
        Nat.xor_lt_two_pow (by simpa using hb) (by simpa using hK)
      have h2 : (b ^^^ K) ^^^ K' < 2 ^ 8 :=
        Nat.xor_lt_two_pow h1 (by simpa using hK')
      simpa using h2
    have hnat : b ^^^ K ^^^ K' = b := by
      have := congrArg Char.toNat hhead
      rwa [fromCharCode_toNat _ hbk, fromCharCode_toNat _ hb] at this
    rw [Nat.xor_assoc] at hnat
    have h0 : K ^^^ K' = 0 := by
      have hb0 : b ^^^ (K ^^^ K') = b ^^^ 0 := by rw [Nat.xor_zero]; exact hnat
      exact Nat.xor_right_inj.mp hb0
    exact hne (Nat.xor_eq_zero.mp h0).symm

/-- Fixture: a session holding `/sec/f`, the tagged-hex XOR encoding of the
bytes of `"FLAG"` under key 42, flagged encrypted. -/
def c7Session : Session :=
  { id := "s", userId := 0,
    fsRoot := .dir [("sec", .dir [("f", .file (xorEncrypt [70, 76, 65, 71] 42)
      { encrypted := true })] {})] {},
    currentPath := "/", unlockedPaths := none, puzzleState := [], aiState := {} }

/-- Witness for C7: decrypting the concrete ciphertext of `"FLAG"` with key
42 returns the plaintext and rewrites the node; key 43 succeeds with
different output. -/
theorem claim7_witness :
    decOut (decrypt c7Session "/sec/f" (some 42)) =
      some (plainString [70, 76, 65, 71]) ∧
    decNodeAt (decrypt c7Session "/sec/f" (some 42))
        (resolvePath c7Session.currentPath "/sec/f") =
      some (.file (plainString [70, 76, 65, 71])
        { encrypted := false, decrypted := true }) ∧
    decOut (decrypt c7Session "/sec/f" (some 43)) =
      some (plainString ([70, 76, 65, 71].map fun b => b ^^^ 42 ^^^ 43)) ∧
    plainString ([70, 76, 65, 71].map fun b => b ^^^ 42 ^^^ 43) ≠
      plainString [70, 76, 65, 71] :=
  claim7_decrypt_inverse [70, 76, 65, 71] 42 43 c7Session "/sec/f"
    { encrypted := true } (by decide) (by decide) (by decide) (by decide)
    (by decide) rfl rfl

end NeonRain
